import Mathlib

/-!
Shallow embedding of the schedule_me calendar assistant's core logic
(timezone normalization, conflict detection, provider mutation merging,
cache upsert, intent classification, cache read path, SQL generation
fallback, responders, and result validation), together with theorems
checking the repository's specification claims against it.

Datetimes are modelled at the instant level: a wall-clock value and a UTC
offset, both in integer minutes.  A Python `datetime` is either naive
(no tzinfo) or aware (wall clock plus offset); the instant an aware value
denotes is `wall - off`.  A pytz timezone is modelled by two functions:
`offsetAt`, the UTC offset in effect at a given UTC instant (what
`astimezone` applies), and `localizeOff`, the offset `tz.localize` picks
for a naive wall-clock value (which near a DST transition may differ from
the offset at the resulting instant).
-/

/-- An aware datetime: wall-clock minutes and a UTC offset in minutes. -/
structure AwareDT where
  wall : Int
  off : Int
deriving DecidableEq, Repr

/-- The UTC instant an aware datetime denotes. -/
def AwareDT.instant (a : AwareDT) : Int := a.wall - a.off

/-- A Python datetime: naive (tzinfo is None) or aware. -/
inductive PyDT where
  | naive (wall : Int)
  | aware (a : AwareDT)
deriving DecidableEq, Repr

/-- A pytz timezone, characterised by its offset behaviour. -/
structure PyTz where
  offsetAt : Int → Int
  localizeOff : Int → Int

/-- The UTC timezone: zero offset everywhere. -/
def utcTz : PyTz := ⟨fun _ => 0, fun _ => 0⟩

/-- `TimezoneManager.convert_to_user_tz`: a naive datetime is localized as
UTC, then the value is projected into the user zone with `astimezone`
(which preserves the instant and attaches the zone's offset at that
instant).  The result is always aware. -/
def convert_to_user_tz (tz : PyTz) : PyDT → AwareDT
  | .naive w => ⟨w + tz.offsetAt w, tz.offsetAt w⟩
  | .aware a => ⟨a.instant + tz.offsetAt a.instant, tz.offsetAt a.instant⟩

/-- `TimezoneManager.convert_to_utc`: a naive datetime is localized in the
user zone (using the offset `localize` picks for that wall-clock value),
then projected to UTC.  The result is always aware with offset 0. -/
def convert_to_utc (tz : PyTz) : PyDT → AwareDT
  | .naive w => ⟨w - tz.localizeOff w, 0⟩
  | .aware a => ⟨a.instant, 0⟩

/-- The UTC instant a proposed input denotes: an aware value denotes its
instant; a zone-naive value is reinterpreted as UTC. -/
def utcInstantOf : PyDT → Int
  | .naive w => w
  | .aware a => a.instant

/-- C5: for every timezone and every UTC instant `t` (timezone-aware, or
zone-naive and therefore reinterpreted as UTC), converting into the user
zone and back to UTC (`convert_to_utc (convert_to_user_tz t)`) denotes the
same instant as `t`.  The round trip holds because `convert_to_user_tz`
always yields an aware value, so `convert_to_utc` takes its
instant-preserving aware branch and never consults `localizeOff`. -/
theorem convert_roundtrip_preserves_instant (tz : PyTz) (t : PyDT) :
    (convert_to_utc tz (.aware (convert_to_user_tz tz t))).instant = utcInstantOf t := by
  cases t <;> simp [convert_to_utc, convert_to_user_tz, AwareDT.instant, utcInstantOf]

example :
    (convert_to_utc utcTz (.aware (convert_to_user_tz utcTz (.naive 90)))).instant = 90 := by
  decide

/-! ## Conflict detection (`CalendarManagementAgent.check_conflicts`) -/

/-- A provider event item as fetched for the conflict check, with its
start/end already parsed.  Both parsing branches of the source attach a
tzinfo (ISO strings carry an offset; date-only strings get UTC), so the
parsed times are always aware.  `summary` and `location` are optional on
the wire, defaulted when building a conflict record. -/
structure GItem where
  id : String
  summary : Option String
  estart : AwareDT
  eend : AwareDT
  location : Option String
deriving DecidableEq, Repr

/-- A reported conflict: `{id, summary, start, end, location}`. -/
structure Conflict where
  id : String
  summary : String
  cstart : AwareDT
  cend : AwareDT
  location : String
deriving DecidableEq, Repr

/-- Python `<` on datetimes: aware values compare by instant, naive values
by wall clock, and comparing naive with aware raises `TypeError`
(modelled as `none`). -/
def pyLt : PyDT → PyDT → Option Bool
  | .naive w1, .naive w2 => some (decide (w1 < w2))
  | .aware a1, .aware a2 => some (decide (a1.instant < a2.instant))
  | _, _ => none

/-- The conversion the mutation agents apply to proposed times: with a
timezone manager, `convert_to_utc`; without one, `astimezone(utc)` for
aware values and identity for naive ones. -/
def toUtcOpt (tz : Option PyTz) : PyDT → PyDT
  | dt =>
    match tz with
    | some m => .aware (convert_to_utc m dt)
    | none =>
      match dt with
      | .aware a => .aware ⟨a.instant, 0⟩
      | .naive w => .naive w

/-- The loop guard `if exclude_event_id and event_id == exclude_event_id`:
the skip fires only when the exclude id is truthy (given and non-empty)
and equal to the item's id. -/
def skipEv (ex : Option String) (id : String) : Bool :=
  match ex with
  | some x => !(x == "") && (id == x)
  | none => false

/-- Build the conflict record appended by the loop, with the source's
defaults for a missing summary or location. -/
def mkConflict (ev : GItem) : Conflict :=
  ⟨ev.id, ev.summary.getD ("Untitled Event"), ev.estart, ev.eend, ev.location.getD ("")⟩

/-- The `for event in items` loop of `check_conflicts`: skip the excluded
id, test `start_utc < event_end and end_utc > event_start` with Python
comparison semantics (short-circuit `and`; a naive/aware comparison raises,
aborting the whole call), and collect conflicts in order. -/
def conflictsGo (su eu : PyDT) (ex : Option String) : List GItem → Option (List Conflict)
  | [] => some []
  | ev :: rest =>
    if skipEv ex ev.id then conflictsGo su eu ex rest
    else
      match pyLt su (.aware ev.eend) with
      | none => none
      | some false => conflictsGo su eu ex rest
      | some true =>
        match pyLt (.aware ev.estart) eu with
        | none => none
        | some false => conflictsGo su eu ex rest
        | some true => (conflictsGo su eu ex rest).map (fun cs => mkConflict ev :: cs)

/-- `CalendarManagementAgent.check_conflicts`: convert the proposed times,
run the loop over the fetched items, and on any exception return `[]`
(conflict detection never blocks the primary action). -/
def check_conflicts (tz : Option PyTz) (st et : PyDT) (ex : Option String)
    (items : List GItem) : List Conflict :=
  (conflictsGo (toUtcOpt tz st) (toUtcOpt tz et) ex items).getD []

/-- The conflict list as claim C1 words it: exactly the fetched events
with `e.id != excludeId` passing the strict half-open test on the
UTC-converted proposed times. -/
def check_conflicts_claimed (tz : PyTz) (st et : PyDT) (ex : Option String)
    (items : List GItem) : List Conflict :=
  (items.filter (fun ev =>
    !(some ev.id == ex) &&
    decide ((convert_to_utc tz st).instant < ev.eend.instant) &&
    decide ((convert_to_utc tz et).instant > ev.estart.instant))).map mkConflict

/-- The loop never raises once both proposed times are aware, and returns
exactly the filter by the skip guard and the strict overlap test. -/
theorem conflictsGo_aware (sa ea : AwareDT) (ex : Option String) (items : List GItem) :
    conflictsGo (.aware sa) (.aware ea) ex items =
      some ((items.filter (fun ev =>
        !(skipEv ex ev.id) &&
        decide (sa.instant < ev.eend.instant) &&
        decide (ea.instant > ev.estart.instant))).map mkConflict) := by
  induction items with
  | nil => rfl
  | cons ev rest ih =>
    by_cases hs : skipEv ex ev.id
    · simp [conflictsGo, hs, ih, List.filter]
    · by_cases h1 : sa.instant < ev.eend.instant
      · by_cases h2 : ea.instant > ev.estart.instant
        · simp [conflictsGo, hs, pyLt, h1, h2, ih, List.filter]
        · simp [conflictsGo, hs, pyLt, h1, h2, ih, List.filter]
      · simp [conflictsGo, hs, pyLt, h1, ih, List.filter]

/-- C1 (amended): with a timezone manager configured, `check_conflicts`
reports exactly those fetched events that pass the strict half-open test
`start_utc < e.end AND end_utc > e.start` on the UTC-converted proposed
times and are not skipped by the exclude guard — where the guard skips an
event only when the exclude id is given, non-empty, and equal to the
event's id (an empty-string exclude id is treated as absent).  Because
both inequalities are strict, ranges that merely touch at an endpoint are
never reported. -/
theorem check_conflicts_exact_filter (tz : PyTz) (st et : PyDT) (ex : Option String)
    (items : List GItem) :
    check_conflicts (some tz) st et ex items =
      (items.filter (fun ev =>
        !(skipEv ex ev.id) &&
        decide ((convert_to_utc tz st).instant < ev.eend.instant) &&
        decide ((convert_to_utc tz et).instant > ev.estart.instant))).map mkConflict := by
  simp [check_conflicts, toUtcOpt, conflictsGo_aware]

/-- C1 counterexample: with an empty-string exclude id and an overlapping
fetched event whose id is the empty string, the code reports the event
(the Python guard `exclude_event_id and ...` treats the empty string as
falsy and skips nothing), while the claim's test `e.id != excludeId`
excludes it. -/
theorem check_conflicts_empty_exclude_counterexample :
    check_conflicts (some utcTz) (.naive 0) (.naive 100) (some ("")) [⟨"", none, ⟨10, 0⟩, ⟨20, 0⟩, none⟩] ≠
      check_conflicts_claimed utcTz (.naive 0) (.naive 100) (some ("")) [⟨"", none, ⟨10, 0⟩, ⟨20, 0⟩, none⟩] := by
  decide

/-! ## Provider mutation merge (`CalendarManagementAgent.modify_event`) -/

/-- The original event as read back from the provider before a modify:
current field values plus parsed start/end (both parsing branches of the
source attach a tzinfo, so they are aware). -/
structure ProvEvent where
  summary : String
  description : String
  location : String
  attendees : List String
  pstart : AwareDT
  pend : AwareDT
deriving DecidableEq, Repr

/-- The event body sent to the provider's update call.  Unchanged times
keep the original aware values; rewritten times hold the UTC-converted
datetime (the RFC3339 text rendering of that value is elided). -/
structure EventBody where
  summary : String
  description : String
  location : String
  attendees : List String
  bstart : PyDT
  bend : PyDT
deriving DecidableEq, Repr

/-- Python `datetime + timedelta`: adds to the wall clock, keeping the
tzinfo (and, for a pytz fixed-offset instance, the offset). -/
def pyAdd : PyDT → Int → PyDT
  | .naive w, d => .naive (w + d)
  | .aware a, d => .aware ⟨a.wall + d, a.off⟩

/-- The `if start_time and not end_time` inference step: with only a new
start, the new end is the new start plus the original duration
`original_end - original_start` (an aware-datetime difference, i.e. an
instant difference); otherwise the given end (or its absence) is kept. -/
def inferEnd (ev : ProvEvent) (st? et? : Option PyDT) : Option PyDT :=
  match st?, et? with
  | some st, none => some (pyAdd st (ev.pend.instant - ev.pstart.instant))
  | _, _ => et?

/-- The field-merge portion of `modify_event`: a truthy summary replaces
the original (so `None` and the empty string both leave it unchanged);
description, location and attendees are replaced whenever not `None`
(so an empty value clears them); a given start, and the given-or-inferred
end, are rewritten as UTC. -/
def modify_merge (tz : Option PyTz) (ev : ProvEvent) (summary? : Option String)
    (st? et? : Option PyDT) (desc? loc? : Option String)
    (att? : Option (List String)) : EventBody :=
  let et2 := inferEnd ev st? et?
  let b0 : EventBody :=
    ⟨ev.summary, ev.description, ev.location, ev.attendees, .aware ev.pstart, .aware ev.pend⟩
  let b1 := match summary? with
    | some s => if s == "" then b0 else { b0 with summary := s }
    | none => b0
  let b2 := match desc? with
    | some d => { b1 with description := d }
    | none => b1
  let b3 := match loc? with
    | some l => { b2 with location := l }
    | none => b2
  let b4 := match att? with
    | some a => { b3 with attendees := a }
    | none => b3
  let b5 := match st? with
    | some st => { b4 with bstart := toUtcOpt tz st }
    | none => b4
  match et2 with
  | some e => { b5 with bend := toUtcOpt tz e }
  | none => b5

/-- Outcome of a provider mutation: the updated body, or the caught
error's message. -/
inductive MutResult where
  | ok (body : EventBody)
  | err (msg : String)
deriving DecidableEq, Repr

/-- `CalendarManagementAgent.modify_event`: read the original event from
the provider (an exception there is caught and reported as a failure),
then merge the requested changes and send the update. -/
def modify_event (tz : Option PyTz) (fetch : Except String ProvEvent)
    (summary? : Option String) (st? et? : Option PyDT) (desc? loc? : Option String)
    (att? : Option (List String)) : MutResult :=
  match fetch with
  | .error e => .err e
  | .ok ev => .ok (modify_merge tz ev summary? st? et? desc? loc? att?)

/-- The end time a mutation result will write, when it succeeded. -/
def MutResult.endOf : MutResult → Option PyDT
  | .ok b => some b.bend
  | .err _ => none

/-- C2: for a modify request with a new start and no new end, whose
provider read succeeded, the end written to the provider is the
UTC-conversion of the new start plus the original duration
`original_end - original_start`. -/
theorem modify_event_infers_end_from_duration (tz : Option PyTz) (ev : ProvEvent)
    (summary? : Option String) (st : PyDT) (desc? loc? : Option String)
    (att? : Option (List String)) :
    (modify_event tz (.ok ev) summary? (some st) none desc? loc? att?).endOf =
      some (toUtcOpt tz (pyAdd st (ev.pend.instant - ev.pstart.instant))) := by
  cases summary? with
  | none =>
    cases desc? <;> cases loc? <;> cases att? <;>
      simp [modify_event, modify_merge, inferEnd, MutResult.endOf]
  | some s =>
    by_cases hs : s == ""
    · cases desc? <;> cases loc? <;> cases att? <;>
        simp [modify_event, modify_merge, inferEnd, MutResult.endOf, hs]
    · cases desc? <;> cases loc? <;> cases att? <;>
        simp [modify_event, modify_merge, inferEnd, MutResult.endOf, hs]

/- Scenario from the spec, minutes counted from 2024-03-11 00:00 UTC: the
original event ran 09:00 to 10:30 (540 to 630), the new start is
2024-03-12 09:00 (1980), and the inferred new end is 2024-03-12 10:30
(2070). -/
example :
    (modify_event (some utcTz) (.ok ⟨"Sync", "", "", [], ⟨540, 0⟩, ⟨630, 0⟩⟩)
        none (some (.naive 1980)) none none none none).endOf =
      some (.aware ⟨2070, 0⟩) := by
  decide

/-- C7 counterexample: an explicit empty-string summary does not clear the
title — `if summary:` treats it exactly like `None` and the original
summary is kept — while the claim says an empty string means "clear this
field" for every field including summary. -/
theorem modify_event_empty_summary_counterexample :
    (modify_merge none ⟨"Old title", "d", "l", [], ⟨0, 0⟩, ⟨60, 0⟩⟩
        (some ("")) none none none none none).summary = "Old title" ∧
      "Old title" ≠ "" := by
  constructor
  · rfl
  · decide

/-- C7 (amended): in `modify_event`, `None` is the "no change" marker and
an empty value means "clear" for description, location and attendees; for
summary alone the two are conflated — both `None` and the empty string
leave the original summary in place, and only a non-empty summary
replaces it. -/
theorem modify_merge_field_semantics (tz : Option PyTz) (ev : ProvEvent)
    (summary? : Option String) (st? et? : Option PyDT) (desc? loc? : Option String)
    (att? : Option (List String)) :
    (modify_merge tz ev summary? st? et? desc? loc? att?).description =
        desc?.getD ev.description ∧
      (modify_merge tz ev summary? st? et? desc? loc? att?).location =
        loc?.getD ev.location ∧
      (modify_merge tz ev summary? st? et? desc? loc? att?).attendees =
        att?.getD ev.attendees ∧
      (modify_merge tz ev summary? st? et? desc? loc? att?).summary =
        (match summary? with
          | some s => if s = "" then ev.summary else s
          | none => ev.summary) := by
  cases summary? with
  | none =>
    cases st? <;> cases et? <;> cases desc? <;> cases loc? <;> cases att? <;>
      simp [modify_merge, inferEnd]
  | some s =>
    by_cases h : s = ""
    · cases st? <;> cases et? <;> cases desc? <;> cases loc? <;> cases att? <;>
        simp [modify_merge, inferEnd, h]
    · cases st? <;> cases et? <;> cases desc? <;> cases loc? <;> cases att? <;>
        simp [modify_merge, inferEnd, h]

/-! ## Cache upsert (`CalendarAgent._store_events`) -/

/-- One row of the `events` cache table.  Attendees are persisted as a
JSON-encoded list; the encoding to text is elided and the list kept. -/
structure EventRow where
  summary : String
  description : String
  start_time : String
  end_time : String
  location : String
  attendees : List String
  status : String
  html_link : String
  created_at : String
  updated_at : String
deriving DecidableEq, Repr

/-- A processed provider event as handed to the store step, its start and
end already rendered to the cache's UTC string format. -/
structure StoreEvent where
  id : String
  summary : String
  description : String
  start_time : String
  end_time : String
  location : String
  attendees : List String
  status : String
  htmlLink : String
deriving DecidableEq, Repr

/-- The cache: rows keyed by the provider event id (the table's primary
key). -/
def CacheDB := List (String × EventRow)

/-- Row lookup by primary key. -/
def dbLookup (db : CacheDB) (id : String) : Option EventRow :=
  (db.find? (fun p => p.1 == id)).map Prod.snd

/-- `INSERT OR REPLACE` keyed on the primary key: the new row replaces any
row with the same id. -/
def dbReplace (db : CacheDB) (id : String) (row : EventRow) : CacheDB :=
  (id, row) :: db.filter (fun p => !(p.1 == id))

/-- One iteration of the `_store_events` loop: the row's `created_at` is
`COALESCE((SELECT created_at FROM events WHERE id = ?), now)` — the
existing row's creation time when the id is present, else `now` — and
every other column takes the incoming values, with `updated_at = now`. -/
def store_event (db : CacheDB) (ev : StoreEvent) (now : String) : CacheDB :=
  let created := match dbLookup db ev.id with
    | some r => r.created_at
    | none => now
  dbReplace db ev.id
    ⟨ev.summary, ev.description, ev.start_time, ev.end_time, ev.location,
      ev.attendees, ev.status, ev.htmlLink, created, now⟩

/-- `CalendarAgent._store_events`: upsert each processed event in order,
with one `now` timestamp for the whole batch. -/
def store_events (db : CacheDB) (evs : List StoreEvent) (now : String) : CacheDB :=
  evs.foldl (fun d e => store_event d e now) db

/-- Looking up the id just upserted yields the upserted row. -/
theorem dbLookup_dbReplace (db : CacheDB) (id : String) (row : EventRow) :
    dbLookup (dbReplace db id row) id = some row := by
  simp [dbLookup, dbReplace, List.find?]

/-- C3: for an id absent from the cache, inserting it and then upserting
it again leaves `created_at` at the first insert's timestamp, while every
other column — summary, description, start_time, end_time, location,
attendees, status, html_link and updated_at — takes the latest upsert's
values. -/
theorem store_event_upsert_semantics (db : CacheDB) (ev1 ev2 : StoreEvent)
    (n1 n2 : String) (h0 : dbLookup db ev1.id = none) (h1 : ev2.id = ev1.id) :
    dbLookup (store_event (store_event db ev1 n1) ev2 n2) ev1.id =
      some ⟨ev2.summary, ev2.description, ev2.start_time, ev2.end_time, ev2.location,
        ev2.attendees, ev2.status, ev2.htmlLink, n1, n2⟩ := by
  have hrow1 : dbLookup (store_event db ev1 n1) ev1.id =
      some ⟨ev1.summary, ev1.description, ev1.start_time, ev1.end_time, ev1.location,
        ev1.attendees, ev1.status, ev1.htmlLink, n1, n1⟩ := by
    simp [store_event, h0, dbLookup_dbReplace]
  simp [store_event, h0, h1, hrow1, dbLookup_dbReplace]

/-- C3 witness: two concrete upserts of id `"e1"` into an empty cache. -/
theorem store_event_upsert_semantics_witness :
    dbLookup ([] : CacheDB) "e1" = none ∧
      dbLookup
          (store_event
            (store_event ([] : CacheDB)
              ⟨"e1", "Standup", "old d", "2024-03-11 09:00:00", "2024-03-11 09:30:00",
                "Room 1", ["a@x.com"], "confirmed", "link1"⟩ "t1")
            ⟨"e1", "Standup v2", "new d", "2024-03-12 09:00:00", "2024-03-12 09:30:00",
              "Room 2", ["b@x.com"], "confirmed", "link2"⟩ "t2")
          "e1" =
        some ⟨"Standup v2", "new d", "2024-03-12 09:00:00", "2024-03-12 09:30:00",
          "Room 2", ["b@x.com"], "confirmed", "link2", "t1", "t2"⟩ :=
  ⟨by decide,
    store_event_upsert_semantics ([] : CacheDB)
      ⟨"e1", "Standup", "old d", "2024-03-11 09:00:00", "2024-03-11 09:30:00",
        "Room 1", ["a@x.com"], "confirmed", "link1"⟩
      ⟨"e1", "Standup v2", "new d", "2024-03-12 09:00:00", "2024-03-12 09:30:00",
        "Room 2", ["b@x.com"], "confirmed", "link2"⟩
      "t1" "t2" (by decide) rfl⟩

/-! ## Intent classification (`IntentAgent.identify_intent`) -/

/-- The whitespace set Python's `str.strip()` removes. -/
def pyWhitespace (c : Char) : Bool :=
  c == ' ' || c == '\t' || c == '\n' || c == '\r' || c == '\x0b' || c == '\x0c'

/-- Python `str.strip()`: drop leading and trailing whitespace. -/
def pyStrip (s : String) : String :=
  String.mk (((s.toList.dropWhile pyWhitespace).reverse.dropWhile pyWhitespace).reverse)

/-- Python `str.lower()` (on the ASCII letters the intent labels use):
lowercase every character. -/
def pyLower (s : String) : String := String.mk (s.toList.map Char.toLower)

/-- The valid intent labels. -/
def valid_intents : List String := ["query", "create", "modify", "cancel", "quit"]

/-- `IntentAgent.identify_intent`: the completion call is an oracle whose
outcome is the response text or an exception.  The response is stripped
and lowercased; anything outside the valid set, or any exception, yields
the default label. -/
def identify_intent (oracle : Except String String) : String :=
  match oracle with
  | .error _ => "query"
  | .ok resp =>
    let intent := pyLower (pyStrip resp)
    if intent ∈ valid_intents then intent else "query"

/-- C4: `identify_intent` always returns one of the five valid labels, and
whenever the completion call raises, or the stripped-and-lowercased
response (including the empty response) is outside the valid set, it
returns the default label `"query"`. -/
theorem identify_intent_defaults_to_query (o : Except String String) :
    identify_intent o ∈ valid_intents ∧
      (∀ e, o = .error e → identify_intent o = "query") ∧
      (∀ s, o = .ok s → pyLower (pyStrip s) ∉ valid_intents →
        identify_intent o = "query") := by
  refine ⟨?_, ?_, ?_⟩
  · cases o with
    | error e => simp [identify_intent, valid_intents]
    | ok s =>
      simp only [identify_intent]
      split
      · assumption
      · simp [valid_intents]
  · intro e he
    subst he
    rfl
  · intro s hs hnot
    subst hs
    simp [identify_intent, hnot]

/-- C4 witness: an out-of-vocabulary response and a raised call both give
the default label. -/
theorem identify_intent_defaults_to_query_witness :
    identify_intent (.ok ("banana")) = "query" ∧
      identify_intent (.error ("boom")) = "query" :=
  ⟨(identify_intent_defaults_to_query (.ok ("banana"))).2.2 ("banana") rfl (by decide),
    (identify_intent_defaults_to_query (.error ("boom"))).2.1 ("boom") rfl⟩

/-! ## SQL generation fallback (`SQLAgent.text_to_sql`) -/

/-- The Markdown-fence stripping applied to a generated query: when the
stripped response opens with a fence, keep the text between the first two
fences, drop a leading `sql` tag, and strip again. -/
def strip_fences (sql0 : String) : String :=
  if sql0.startsWith ("```") then
    let sql1 := (sql0.splitOn ("```")).getD 1 ("")
    let sql2 := if sql1.startsWith ("sql") then sql1.drop 3 else sql1
    pyStrip sql2
  else sql0

/-- Python truthiness of an optional list argument: `None` and the empty
list are falsy. -/
def pyTruthyList : Option (List α) → Bool
  | none => false
  | some l => !l.isEmpty

/-- `SQLAgent.text_to_sql`: on a successful completion, the stripped and
defenced query text; on an exception, the free-text QA fallback (which
answers from the live event list and returns `None`) only when a QA agent
and a truthy event list were supplied, else the default query over the
cache. -/
def text_to_sql (hasQa : Bool) (events : Option (List α))
    (oracle : Except String String) : Option String :=
  match oracle with
  | .ok resp => some (strip_fences (pyStrip resp))
  | .error _ =>
    if hasQa && pyTruthyList events then none
    else some ("SELECT * FROM events ORDER BY start_time")

/-- C8 counterexample: with no QA agent supplied (and no event list), a
failed generation returns the default `SELECT * FROM events ...` string —
a query that reads the cache — not `None` as the claim requires for every
failure. -/
theorem text_to_sql_failure_counterexample :
    text_to_sql false (none : Option (List Unit)) (.error ("boom")) =
        some ("SELECT * FROM events ORDER BY start_time") ∧
      text_to_sql false (none : Option (List Unit)) (.error ("boom")) ≠ none := by
  constructor
  · rfl
  · decide

/-- C8 (amended): when SQL generation fails, the call avoids the cache and
returns `None` (answering through the QA synthesizer on the live event
list) exactly when a QA agent and a non-empty event list were supplied;
in every other failure case it falls back to the cache-reading default
query `SELECT * FROM events ORDER BY start_time`. -/
theorem text_to_sql_failure_branches (hasQa : Bool) (events : Option (List α))
    (e : String) :
    (text_to_sql hasQa events (.error e) = none ↔
        hasQa = true ∧ ∃ l, events = some l ∧ l ≠ []) ∧
      (text_to_sql hasQa events (.error e) = none ∨
        text_to_sql hasQa events (.error e) =
          some ("SELECT * FROM events ORDER BY start_time")) := by
  constructor
  · cases hasQa with
    | false => simp [text_to_sql, pyTruthyList]
    | true =>
      rcases events with _ | l
      · simp [text_to_sql, pyTruthyList]
      · by_cases hl : l = [] <;> simp [text_to_sql, pyTruthyList, hl]
  · cases hasQa with
    | false => simp [text_to_sql, pyTruthyList]
    | true =>
      rcases events with _ | l
      · simp [text_to_sql, pyTruthyList]
      · by_cases hl : l = [] <;> simp [text_to_sql, pyTruthyList, hl]

/-! ## Responders (`ResponseAgent.generate_response`, `QAAgent.answer`) -/

/-- `ResponseAgent.generate_response`: the model's reply when the call
succeeds; on an exception, a templated count-based message derived from
the given events. -/
def generate_response (events : List α) (oracle : Except String String) : String :=
  match oracle with
  | .ok r => pyStrip r
  | .error _ =>
    if !events.isEmpty then
      "Found " ++ toString events.length ++ " event(s) matching your query."
    else
      "I don't see any events matching your request."

namespace QAAgent

/-- `QAAgent.answer`: the model's reply when the call succeeds; on an
exception, a string carrying the exception's text. -/
def answer (events : List α) (oracle : Except String String) : String :=
  match oracle with
  | .ok r => pyStrip r
  | .error e => "Error: " ++ e

end QAAgent

/-- C9 counterexample: on model failure `QAAgent.answer` returns the
underlying error text (`"Error: boom"`), not a templated count-based
message for its one-event list. -/
theorem qa_answer_propagates_error_counterexample :
    QAAgent.answer [()] (.error ("boom")) = "Error: boom" ∧
      QAAgent.answer [()] (.error ("boom")) ≠ "Found 1 event(s) matching your query." := by
  constructor
  · rfl
  · decide

/-- C9 (amended): on model failure `generate_response` falls back to the
templated count-based message derived from the given events ("Found N
event(s) matching your query." or the no-events variant), but
`QAAgent.answer` instead returns `"Error: "` followed by the underlying
error text. -/
theorem responder_failure_fallbacks (events : List α) (e : String) :
    generate_response events (.error e) =
        (if events.isEmpty then "I don't see any events matching your request."
          else "Found " ++ toString events.length ++ " event(s) matching your query.") ∧
      QAAgent.answer events (.error e) = "Error: " ++ e := by
  constructor
  · cases h : events.isEmpty <;> simp [generate_response, h]
  · rfl

/-! ## Result validation (`ValidationAgent.validate`) -/

/-- A parsed JSON value, as `json.loads` yields. -/
inductive PyVal where
  | nullv
  | boolv (b : Bool)
  | numv (n : Int)
  | strv (s : String)
  | arrv (xs : List PyVal)
  | objv (fields : List (String × PyVal))

/-- Whether a parsed JSON value is an object containing the given key. -/
def hasKey : PyVal → String → Bool
  | .objv fs, k => fs.any (fun p => p.1 == k)
  | _, _ => false

/-- Look up a key in a parsed JSON object. -/
def getKey : PyVal → String → Option PyVal
  | .objv fs, k => (fs.find? (fun p => p.1 == k)).map Prod.snd
  | _, _ => none

/-- `ValidationAgent.validate`: the completion call, fence stripping and
`json.loads` are collapsed into one oracle whose outcome is either an
exception or the parsed JSON value.  On success the parsed value is
returned as-is; on any internal error the fail-open result
`{'valid': True, 'message': 'Validation error: ...'}` is returned. -/
def validate (oracle : Except String PyVal) : PyVal :=
  match oracle with
  | .ok v => v
  | .error e =>
    .objv [("valid", .boolv true), ("message", .strv ("Validation error: " ++ e))]

/-- C10 counterexample: when the model's reply parses to the JSON object
`{}`, `validate` returns it unchanged, and the result carries no `valid`
flag at all — contradicting the claim that every returned result contains
one. -/
theorem validate_missing_flag_counterexample :
    hasKey (validate (.ok (.objv []))) "valid" = false := rfl

/-- C10 (amended): whenever the model call or the parsing of its output
raises an internal error, `validate` returns a result whose `valid` field
is `true` — the validation step never blocks the already-performed
mutation on its own failure — while on a successful parse it returns the
model's JSON as-is (which carries a `valid` flag only when the model
supplied one). -/
theorem validate_fails_open (e : String) (v : PyVal) :
    getKey (validate (.error e)) "valid" = some (.boolv true) ∧
      validate (.ok v) = v :=
  ⟨rfl, rfl⟩

/-! ## Cache read path (`DatabaseAgent.execute_query`,
`TimezoneManager.parse_from_sqlite`) -/

/-- Decimal value of a digit character. -/
def digitVal (c : Char) : Option Nat :=
  if c.isDigit then some (c.toNat - 48) else none

/-- Two-digit decimal number. -/
def num2 (a b : Char) : Option Nat := do
  let x ← digitVal a
  let y ← digitVal b
  some (10 * x + y)

/-- Four-digit decimal number. -/
def num4 (a b c d : Char) : Option Nat := do
  let x ← num2 a b
  let y ← num2 c d
  some (100 * x + y)

/-- Broken-down civil datetime fields. -/
structure DT6 where
  year : Nat
  month : Nat
  day : Nat
  hour : Nat
  minute : Nat
  second : Nat
deriving DecidableEq, Repr

/-- Datetime fields plus an optional UTC offset in minutes (`None` for a
naive value), as `datetime.fromisoformat` yields. -/
structure DT6O where
  dt : DT6
  offMin : Option Int
deriving DecidableEq, Repr

/-- Field validation as `strptime`/`fromisoformat` apply it. -/
def mkDT6 (yv mov dv hv miv sv : Nat) : Option DT6 :=
  if 1 ≤ mov ∧ mov ≤ 12 ∧ 1 ≤ dv ∧ dv ≤ 31 ∧ hv ≤ 23 ∧ miv ≤ 59 ∧ sv ≤ 59 then
    some ⟨yv, mov, dv, hv, miv, sv⟩
  else none

/-- `datetime.strptime(s, '%Y-%m-%d %H:%M:%S')`: accepts exactly the
cache's primary storage format, raising (`none`) on anything else —
including ISO strings with a `T` separator. -/
def strptime_sqlite (str : String) : Option DT6 :=
  match str.toList with
  | [y1, y2, y3, y4, '-', a1, a2, '-', b1, b2, ' ', c1, c2, ':', d1, d2, ':', e1, e2] => do
    let yv ← num4 y1 y2 y3 y4
    let mov ← num2 a1 a2
    let dv ← num2 b1 b2
    let hv ← num2 c1 c2
    let miv ← num2 d1 d2
    let sv ← num2 e1 e2
    mkDT6 yv mov dv hv miv sv
  | _ => none

/-- Optional trailing UTC offset of an ISO string (`±HH:MM`). -/
def parseOffTail : List Char → Option (Option Int)
  | [] => some none
  | ['+', h1, h2, ':', m1, m2] => do
    let hv ← num2 h1 h2
    let mv ← num2 m1 m2
    if hv ≤ 23 ∧ mv ≤ 59 then some (some ((hv : Int) * 60 + mv)) else none
  | ['-', h1, h2, ':', m1, m2] => do
    let hv ← num2 h1 h2
    let mv ← num2 m1 m2
    if hv ≤ 23 ∧ mv ≤ 59 then some (some (-((hv : Int) * 60 + mv))) else none
  | _ => none

/-- `datetime.fromisoformat`, restricted to the repository's secondary
storage format: `YYYY-MM-DDTHH:MM:SS` with an optional `±HH:MM` offset. -/
def fromisoformat (str : String) : Option DT6O :=
  match str.toList with
  | y1 :: y2 :: y3 :: y4 :: '-' :: a1 :: a2 :: '-' :: b1 :: b2 :: 'T' ::
      c1 :: c2 :: ':' :: d1 :: d2 :: ':' :: e1 :: e2 :: rest => do
    let yv ← num4 y1 y2 y3 y4
    let mov ← num2 a1 a2
    let dv ← num2 b1 b2
    let hv ← num2 c1 c2
    let miv ← num2 d1 d2
    let sv ← num2 e1 e2
    let dt ← mkDT6 yv mov dv hv miv sv
    let offv ← parseOffTail rest
    some ⟨dt, offv⟩
  | _ => none

/-- A parsed event timestamp: the raw `fromisoformat`/`strptime` value, or
the result of `parse_from_sqlite` (the stored UTC fields projected into
the user zone; the instant-preserving `astimezone` shift is recorded by
the tag rather than recomputed as wall-clock fields). -/
inductive ParsedDT where
  | raw (f : DT6O)
  | inUserTz (utc : DT6)
deriving DecidableEq, Repr

/-- `TimezoneManager.parse_from_sqlite`: parse with
`strptime '%Y-%m-%d %H:%M:%S'` — raising on any other format — then
localize as UTC and convert into the user zone. -/
def parse_from_sqlite (str : String) : Option ParsedDT :=
  (strptime_sqlite str).map ParsedDT.inUserTz

/-- The per-column parse of `execute_query`: the `'T' in s` check picks
`fromisoformat` or `strptime`; then, when a timezone manager is
configured, the value is recomputed by `parse_from_sqlite`, whose own
parse failure (an exception) propagates. -/
def parseRowTime (hasTz : Bool) (str : String) : Option ParsedDT := do
  let d0 ← if str.toList.contains ('T') then (fromisoformat str).map ParsedDT.raw
    else (strptime_sqlite str).map (fun f => ParsedDT.raw ⟨f, none⟩)
  if hasTz then parse_from_sqlite str else some d0

/-- One row of the `events` table as fetched by the query.  The attendees
column's JSON decoding is elided and the list kept. -/
structure DbRow where
  id : String
  summary : String
  description : String
  start_time : String
  end_time : String
  location : String
  attendees : List String
  status : String
  html_link : String
deriving DecidableEq, Repr

/-- A fetched row converted to the event dictionary the agent returns. -/
structure QEvent where
  id : String
  summary : String
  description : String
  qstart : ParsedDT
  qend : ParsedDT
  location : String
  attendees : List String
  status : String
  htmlLink : String
deriving DecidableEq, Repr

/-- Parse one row's timestamps; a failure anywhere is the loop raising. -/
def rowToEvent (hasTz : Bool) (r : DbRow) : Option QEvent := do
  let sdt ← parseRowTime hasTz r.start_time
  let edt ← parseRowTime hasTz r.end_time
  some ⟨r.id, r.summary, r.description, sdt, edt, r.location, r.attendees, r.status, r.html_link⟩

/-- `DatabaseAgent.execute_query` over already-fetched rows: build the
event list row by row; any exception is caught and the whole call returns
`[]`. -/
def execute_query (hasTz : Bool) (rows : List DbRow) : List QEvent :=
  match rows.mapM (rowToEvent hasTz) with
  | some evs => evs
  | none => []

/-- A stored row in the secondary ISO-8601-with-offset format. -/
def isoRow : DbRow :=
  ⟨"e1", "Standup", "", "2024-03-11T03:00:00+00:00", "2024-03-11T03:30:00+00:00",
    "", [], "confirmed", ""⟩

/-- The same stored row in the primary `YYYY-MM-DD HH:MM:SS` format. -/
def sqliteRow : DbRow :=
  ⟨"e1", "Standup", "", "2024-03-11 03:00:00", "2024-03-11 03:30:00",
    "", [], "confirmed", ""⟩

/-- C6: without a timezone manager the read path accepts both storage
formats, but with one configured an ISO-format row makes
`parse_from_sqlite` raise (`strptime` only accepts the primary format),
the exception is caught, and the whole query returns `[]` — the row is
dropped instead of returned, contradicting the claim (and the read path's
own both-formats handling, which computes and then discards a correct
parse). -/
theorem execute_query_iso_with_tz_drops_rows :
    execute_query true [isoRow] = [] ∧
      execute_query false [isoRow] ≠ [] ∧
      execute_query true [sqliteRow] ≠ [] ∧
      execute_query false [sqliteRow] ≠ [] := by
  refine ⟨rfl, ?_, ?_, ?_⟩ <;> decide
